import Mathlib

/-!
Verification development for the f1-undercut-sim backend.

The definitions below are a shallow embedding, over ℚ, of the Python code in
`backend/` (files `app.py`, `models/deg.py`, `models/outlap.py`,
`services/model_params.py`, `services/tyre_age.py`).  Floating point numbers
are modelled as exact rationals; numpy random draws are modelled by explicit
streams of rationals: `rng.normal(mu, sigma)` consumes one stream element ξ
and yields `mu + sigma * ξ`, `rng.random()` consumes one stream element and
yields it directly.  Two calls with an identically seeded generator are two
runs on the same stream.  The process-global `np.random` state is modelled as
a second stream that is threaded through calls in sequence.
-/

namespace F1Sim

/-- Linear-interpolation sort used throughout the embedding (stand-in for
`np.sort` / `pandas.sort_values` on numeric data; stable, which only matters
for rows with duplicate keys). -/
def sortQ (xs : List ℚ) : List ℚ := List.insertionSort (· ≤ ·) xs

/-- Linear interpolation between adjacent order statistics of `s` at fractional
position `pos`, as in `np.percentile`'s default method.  Out-of-range reads
default to `0`; they are only reachable multiplied by a zero fraction. -/
def interpAt (s : List ℚ) (pos : ℚ) : ℚ :=
  let i : ℕ := (⌊pos⌋).toNat
  s.getD i 0 + (pos - (i : ℚ)) * (s.getD (i + 1) 0 - s.getD i 0)

/-- `np.percentile(xs, q)` with the default linear interpolation method. -/
def percentileQ (xs : List ℚ) (q : ℚ) : ℚ :=
  interpAt (sortQ xs) (q * ((xs.length : ℚ) - 1) / 100)

/-- `np.mean` of a list. -/
def meanQ (xs : List ℚ) : ℚ := xs.sum / (xs.length : ℚ)

/-- `np.median`: average of the two middle order statistics for even length,
the middle one for odd length. -/
def medianQ (xs : List ℚ) : ℚ :=
  let s := sortQ xs
  let n := s.length
  if n % 2 = 1 then s.getD (n / 2) 0
  else (s.getD (n / 2 - 1) 0 + s.getD (n / 2) 0) / 2

/-- Maximum of two rationals, written so that the kernel can evaluate it on
concrete inputs (`np.maximum` / Python `max`). -/
def maxQ (x y : ℚ) : ℚ := if x ≤ y then y else x

/-- Minimum of two rationals, kernel-evaluable (`np.minimum` / Python `min`). -/
def minQ (x y : ℚ) : ℚ := if y ≤ x then y else x

theorem maxQ_le_left (x y : ℚ) : x ≤ maxQ x y := by
  rw [maxQ]; split <;> linarith

theorem maxQ_le_right (x y : ℚ) : y ≤ maxQ x y := by
  rw [maxQ]; split <;> linarith

theorem minQ_le_left (x y : ℚ) : minQ x y ≤ x := by
  rw [minQ]; split <;> linarith

theorem minQ_le_right (x y : ℚ) : minQ x y ≤ y := by
  rw [minQ]; split <;> linarith

theorem le_minQ {x y z : ℚ} (hx : z ≤ x) (hy : z ≤ y) : z ≤ minQ x y := by
  rw [minQ]; split <;> linarith

/-- `np.clip(x, 0.0, 30.0)`. -/
def clip0to30 (x : ℚ) : ℚ := minQ (maxQ x 0) 30

/-- First element of the list attaining the maximum of `f`
(`pandas.Series.idxmax` keeps the first occurrence of the maximum). -/
def firstMaxBy [LinearOrder β] (f : α → β) : List α → Option α
  | [] => none
  | x :: xs =>
    match firstMaxBy f xs with
    | none => some x
    | some y => if f y ≤ f x then some x else some y

theorem firstMaxBy_mem [LinearOrder β] (f : α → β) :
    ∀ {l : List α} {x : α}, firstMaxBy f l = some x → x ∈ l := by
  intro l
  induction l with
  | nil => intro x h; simp [firstMaxBy] at h
  | cons a as ih =>
    intro x h
    rw [firstMaxBy] at h
    cases hrec : firstMaxBy f as with
    | none =>
      rw [hrec] at h
      simp only [Option.some.injEq] at h
      exact h ▸ List.mem_cons_self a as
    | some y =>
      rw [hrec] at h
      by_cases hle : f y ≤ f a
      · simp only [hle, if_pos, Option.some.injEq] at h
        exact h ▸ List.mem_cons_self a as
      · simp only [hle, if_neg, not_false_iff, Option.some.injEq] at h
        exact h ▸ List.mem_cons_of_mem a (ih hrec)

theorem firstMaxBy_of_ne_nil [LinearOrder β] (f : α → β) :
    ∀ {l : List α}, l ≠ [] → ∃ x, firstMaxBy f l = some x := by
  intro l h
  cases l with
  | nil => exact absurd rfl h
  | cons a as =>
    rw [firstMaxBy]
    cases hrec : firstMaxBy f as with
    | none => exact ⟨a, rfl⟩
    | some y =>
      by_cases hle : f y ≤ f a
      · exact ⟨a, by simp [hle]⟩
      · exact ⟨y, by simp [hle]⟩

theorem firstMaxBy_le [LinearOrder β] (f : α → β) :
    ∀ {l : List α} {x : α}, firstMaxBy f l = some x →
      ∀ y ∈ l, f y ≤ f x := by
  intro l
  induction l with
  | nil => intro x _ y hy; simp at hy
  | cons a as ih =>
    intro x h y hy
    rw [firstMaxBy] at h
    cases hrec : firstMaxBy f as with
    | none =>
      rw [hrec] at h
      simp only [Option.some.injEq] at h
      subst h
      rcases List.mem_cons.mp hy with rfl | hmem
      · exact le_refl _
      · cases as with
        | nil => simp at hmem
        | cons b bs =>
          exfalso
          obtain ⟨z, hz⟩ := firstMaxBy_of_ne_nil f (l := b :: bs) (by simp)
          rw [hz] at hrec; exact Option.noConfusion hrec
    | some z =>
      rw [hrec] at h
      by_cases hle : f z ≤ f a
      · simp only [hle, if_pos, Option.some.injEq] at h
        subst h
        rcases List.mem_cons.mp hy with rfl | hmem
        · exact le_refl _
        · exact le_trans (ih hrec y hmem) hle
      · simp only [hle, if_neg, not_false_iff, Option.some.injEq] at h
        subst h
        rcases List.mem_cons.mp hy with rfl | hmem
        · exact le_of_lt (not_le.mp hle)
        · exact ih hrec y hmem

/-- Head of a random stream (a further draw from the generator); streams in
all concrete statements are long enough that the default is never taken. -/
def nextDraw (s : List ℚ) : ℚ × List ℚ := (s.headD 0, s.tail)

/-! ### Aggregation of per-trial margins (`app.py`, `simulate_undercut`, lines 500-507)

```
undercut_successes = np.sum(margins_array > 0)
p_undercut = undercut_successes / len(margins)
expected_margin = float(np.mean(margins_array))
ci_low = float(np.percentile(margins_array, 5))
ci_high = float(np.percentile(margins_array, 95))
```
-/

/-- Aggregate statistics computed by the `/simulate` endpoint from the list of
per-trial margins. -/
structure AggResult where
  pUndercut : ℚ
  expectedMargin : ℚ
  ciLow : ℚ
  ciHigh : ℚ
deriving DecidableEq, Repr

/-- The aggregation step of `simulate_undercut` (`app.py` lines 500-507). -/
def aggregateMargins (margins : List ℚ) : AggResult :=
  { pUndercut := ((margins.countP (fun m => decide (0 < m))) : ℚ) / (margins.length : ℚ)
    expectedMargin := meanQ margins
    ciLow := percentileQ margins 5
    ciHigh := percentileQ margins 95 }

/-! Spec-side formulations for the aggregation (from the spec's words:
"success probability = fraction of trials with margin > 0; expected margin =
sample mean; confidence interval = 5th/95th sample percentiles"). -/

/-- Spec: the fraction of trials whose margin is strictly greater than 0. -/
def specSuccessFraction (margins : List ℚ) : ℚ :=
  ((margins.filter (fun m => decide (0 < m))).length : ℚ) / (margins.length : ℚ)

/-- Spec: the sample mean of the margins. -/
def specMean (margins : List ℚ) : ℚ := margins.sum / (margins.length : ℚ)

/-- Spec: the empirical q-th sample percentile: sort the sample, take the
fractional position `(n-1)·q/100` and interpolate linearly between the two
adjacent order statistics (clamping the upper index to the last element). -/
def specPercentile (margins : List ℚ) (q : ℚ) : ℚ :=
  let s := sortQ margins
  let n := s.length
  let h := q * ((n : ℚ) - 1) / 100
  let lo := (⌊h⌋).toNat
  let hi := min (lo + 1) (n - 1)
  s.getD lo 0 + (h - ((⌊h⌋).toNat : ℚ)) * (s.getD hi 0 - s.getD lo 0)

theorem percentileQ_eq_specPercentile (margins : List ℚ) (q : ℚ)
    (hne : margins ≠ []) (hq0 : 0 ≤ q) (hq1 : q ≤ 100) :
    percentileQ margins q = specPercentile margins q := by
  have hn : 1 ≤ margins.length := List.length_pos.mpr hne
  set s := sortQ margins with hs
  have hslen : s.length = margins.length := by
    simp [sortQ, hs, List.length_insertionSort]
  set pos : ℚ := q * ((margins.length : ℚ) - 1) / 100 with hpos
  have hn1 : (0 : ℚ) ≤ (margins.length : ℚ) - 1 := by
    have : (1 : ℚ) ≤ (margins.length : ℚ) := by exact_mod_cast hn
    linarith
  have hpos0 : 0 ≤ pos := by
    apply div_nonneg (mul_nonneg hq0 hn1) (by norm_num)
  have hposle : pos ≤ (margins.length : ℚ) - 1 := by
    rw [hpos, div_le_iff₀ (by norm_num : (0:ℚ) < 100)]
    nlinarith
  have hfloor0 : 0 ≤ ⌊pos⌋ := Int.floor_nonneg.mpr hpos0
  have hcast : ((⌊pos⌋.toNat : ℕ) : ℚ) = (⌊pos⌋ : ℚ) := by
    exact_mod_cast Int.toNat_of_nonneg hfloor0
  by_cases hcase : ⌊pos⌋.toNat + 1 ≤ margins.length - 1
  · have hmin : (⌊pos⌋.toNat + 1) ⊓ (margins.length - 1) = ⌊pos⌋.toNat + 1 :=
      min_eq_left hcase
    simp only [percentileQ, specPercentile, interpAt, ← hs, ← hpos, hslen, hmin]
  · -- the floor index is already the last position, so the fraction is zero
    have hge' : margins.length - 1 ≤ ⌊pos⌋.toNat := by omega
    have hcastlen : ((margins.length - 1 : ℕ) : ℚ) = (margins.length : ℚ) - 1 := by
      rw [Nat.cast_sub hn]; norm_num
    have hup : ((margins.length - 1 : ℕ) : ℚ) ≤ ((⌊pos⌋.toNat : ℕ) : ℚ) := by
      exact_mod_cast hge'
    have hposeq : pos = ((⌊pos⌋.toNat : ℕ) : ℚ) := by
      rw [hcast]
      have h1 : pos ≤ (⌊pos⌋ : ℚ) := by
        calc pos ≤ (margins.length : ℚ) - 1 := hposle
        _ = ((margins.length - 1 : ℕ) : ℚ) := hcastlen.symm
        _ ≤ ((⌊pos⌋.toNat : ℕ) : ℚ) := hup
        _ = (⌊pos⌋ : ℚ) := hcast
      have h2 : (⌊pos⌋ : ℚ) ≤ pos := Int.floor_le pos
      linarith
    simp only [percentileQ, specPercentile, interpAt, ← hs, ← hpos, hslen, ← hposeq]
    ring

/-- C3: for every non-empty list of per-trial margins, the endpoint's
aggregation computes the success probability as exactly the fraction of
margins strictly greater than 0, the expected margin as exactly the sample
mean, and the confidence interval as exactly the empirical 5th and 95th
sample percentiles. -/
theorem c3_aggregation_exact (margins : List ℚ) (hne : margins ≠ []) :
    aggregateMargins margins =
      { pUndercut := specSuccessFraction margins
        expectedMargin := specMean margins
        ciLow := specPercentile margins 5
        ciHigh := specPercentile margins 95 } := by
  have h5 := percentileQ_eq_specPercentile margins 5 hne (by norm_num) (by norm_num)
  have h95 := percentileQ_eq_specPercentile margins 95 hne (by norm_num) (by norm_num)
  simp [aggregateMargins, specSuccessFraction, specMean, meanQ,
    List.countP_eq_length_filter, h5, h95]

theorem sorted_getD_mono {s : List ℚ} (hs : List.Sorted (· ≤ ·) s)
    {i j : ℕ} (hij : i ≤ j) (hj : j < s.length) :
    s.getD i 0 ≤ s.getD j 0 := by
  have hi : i < s.length := lt_of_le_of_lt hij hj
  rw [List.getD_eq_getElem s 0 hi, List.getD_eq_getElem s 0 hj]
  exact List.Sorted.rel_get_of_le hs (a := ⟨i, hi⟩) (b := ⟨j, hj⟩) hij

theorem interpAt_mono {s : List ℚ} (hs : List.Sorted (· ≤ ·) s)
    {p1 p2 : ℚ} (h0 : 0 ≤ p1) (h12 : p1 ≤ p2)
    (hle : p2 ≤ (s.length : ℚ) - 1) :
    interpAt s p1 ≤ interpAt s p2 := by
  have hN : 1 ≤ s.length := by
    by_contra h
    have : s.length = 0 := by omega
    rw [this] at hle
    norm_num at hle
    linarith
  set i1 : ℕ := (⌊p1⌋).toNat with hi1
  set i2 : ℕ := (⌊p2⌋).toNat with hi2
  have hf1 : 0 ≤ ⌊p1⌋ := Int.floor_nonneg.mpr h0
  have hf2 : 0 ≤ ⌊p2⌋ := Int.floor_nonneg.mpr (le_trans h0 h12)
  have hc1 : ((i1 : ℕ) : ℚ) = (⌊p1⌋ : ℚ) := by
    rw [hi1]; exact_mod_cast Int.toNat_of_nonneg hf1
  have hc2 : ((i2 : ℕ) : ℚ) = (⌊p2⌋ : ℚ) := by
    rw [hi2]; exact_mod_cast Int.toNat_of_nonneg hf2
  have hfl1 : ((i1 : ℕ) : ℚ) ≤ p1 := by rw [hc1]; exact Int.floor_le p1
  have hfl2 : ((i2 : ℕ) : ℚ) ≤ p2 := by rw [hc2]; exact Int.floor_le p2
  have hub1 : p1 < ((i1 : ℕ) : ℚ) + 1 := by
    rw [hc1]; exact_mod_cast Int.lt_floor_add_one p1
  have hub2 : p2 < ((i2 : ℕ) : ℚ) + 1 := by
    rw [hc2]; exact_mod_cast Int.lt_floor_add_one p2
  have hii : i1 ≤ i2 := by
    have : (⌊p1⌋) ≤ ⌊p2⌋ := Int.floor_mono h12
    omega
  have hi2lt : i2 < s.length := by
    have : ((i2 : ℕ) : ℚ) < (s.length : ℚ) := by
      calc ((i2 : ℕ) : ℚ) ≤ p2 := hfl2
      _ ≤ (s.length : ℚ) - 1 := hle
      _ < (s.length : ℚ) := by linarith
    exact_mod_cast this
  rcases eq_or_lt_of_le hii with heq | hlt
  · -- same floor index
    by_cases hin : i1 + 1 < s.length
    · have hsd : s.getD i1 0 ≤ s.getD (i1 + 1) 0 :=
        sorted_getD_mono hs (Nat.le_succ i1) hin
      simp only [interpAt, ← hi1, ← hi2, ← heq]
      nlinarith [sub_nonneg.mpr hsd]
    · -- i1 is the last index, so both positions coincide with it
      have hlast : i1 = s.length - 1 := by omega
      have hcastlen : ((s.length - 1 : ℕ) : ℚ) = (s.length : ℚ) - 1 := by
        rw [Nat.cast_sub hN]; norm_num
      have hp2i : p2 ≤ ((i1 : ℕ) : ℚ) := by
        rw [hlast, hcastlen]; exact hle
      have hp1eq : p1 = ((i1 : ℕ) : ℚ) := le_antisymm (le_trans h12 hp2i) hfl1
      have hp2eq : p2 = ((i1 : ℕ) : ℚ) := le_antisymm hp2i (le_trans hfl1 (hp1eq ▸ h12))
      simp only [interpAt, ← hi1, ← hi2, ← heq, hp1eq, hp2eq]
      exact le_refl _
  · -- strictly larger floor index
    have hi1n : i1 + 1 < s.length := lt_of_le_of_lt hlt hi2lt
    have step1 : interpAt s p1 ≤ s.getD (i1 + 1) 0 := by
      have hsd : s.getD i1 0 ≤ s.getD (i1 + 1) 0 :=
        sorted_getD_mono hs (Nat.le_succ i1) hi1n
      have hγ : p1 - ((i1 : ℕ) : ℚ) ≤ 1 := by linarith
      simp only [interpAt, ← hi1]
      nlinarith [sub_nonneg.mpr hsd]
    have step2 : s.getD (i1 + 1) 0 ≤ s.getD i2 0 :=
      sorted_getD_mono hs hlt hi2lt
    have step3 : s.getD i2 0 ≤ interpAt s p2 := by
      by_cases hγ2 : ((i2 : ℕ) : ℚ) < p2
      · have hi2n : i2 + 1 < s.length := by
          by_contra h
          have hlast : i2 = s.length - 1 := by omega
          have hcastlen : ((s.length - 1 : ℕ) : ℚ) = (s.length : ℚ) - 1 := by
            rw [Nat.cast_sub hN]; norm_num
          have : p2 ≤ ((i2 : ℕ) : ℚ) := by rw [hlast, hcastlen]; exact hle
          linarith
        have hsd : s.getD i2 0 ≤ s.getD (i2 + 1) 0 :=
          sorted_getD_mono hs (Nat.le_succ i2) hi2n
        simp only [interpAt, ← hi2]
        nlinarith [sub_nonneg.mpr hsd]
      · have hp2eq : p2 = ((i2 : ℕ) : ℚ) := le_antisymm (not_lt.mp hγ2) hfl2
        have hfi : (⌊((i2 : ℕ) : ℚ)⌋).toNat = i2 := by
          simp [Int.floor_natCast]
        simp [interpAt, hp2eq, hfi]
    exact le_trans step1 (le_trans step2 step3)

/-- C9 (amended): for every non-empty list of per-trial margins, the
aggregated success probability lies in [0, 1] and the confidence interval is
correctly ordered, ciLow ≤ ciHigh.  (The original claim additionally placed
the sample mean inside the interval; that part is refuted by
`c9_mean_outside_ci_counterexample`.) -/
theorem c9_bounds_amended (margins : List ℚ) (hne : margins ≠ []) :
    0 ≤ (aggregateMargins margins).pUndercut ∧
      (aggregateMargins margins).pUndercut ≤ 1 ∧
      (aggregateMargins margins).ciLow ≤ (aggregateMargins margins).ciHigh := by
  have hn : 1 ≤ margins.length := List.length_pos.mpr hne
  have hnq : (1 : ℚ) ≤ (margins.length : ℚ) := by exact_mod_cast hn
  have hnpos : (0 : ℚ) < (margins.length : ℚ) := by linarith
  refine ⟨?_, ?_, ?_⟩
  · exact div_nonneg (by positivity) (le_of_lt hnpos)
  · rw [aggregateMargins]
    simp only
    rw [div_le_one hnpos]
    exact_mod_cast List.countP_le_length _
  · have hsorted : List.Sorted (· ≤ ·) (sortQ margins) :=
      List.sorted_insertionSort (· ≤ ·) margins
    have hslen : (sortQ margins).length = margins.length := by
      simp [sortQ, List.length_insertionSort]
    have h1 : (0 : ℚ) ≤ 5 * ((margins.length : ℚ) - 1) / 100 := by
      apply div_nonneg _ (by norm_num)
      nlinarith
    have h2 : 5 * ((margins.length : ℚ) - 1) / 100 ≤
        95 * ((margins.length : ℚ) - 1) / 100 := by
      apply div_le_div_of_nonneg_right _ (by norm_num)
      nlinarith
    have h3 : 95 * ((margins.length : ℚ) - 1) / 100 ≤
        ((sortQ margins).length : ℚ) - 1 := by
      rw [hslen]
      rw [div_le_iff₀ (by norm_num : (0:ℚ) < 100)]
      nlinarith
    exact interpAt_mono hsorted h1 h2 h3

/-- Witness for C9 (amended) at the concrete margins list `[2, -3, 1]`. -/
theorem c9_bounds_amended_witness :
    0 ≤ (aggregateMargins [2, -3, 1]).pUndercut ∧
      (aggregateMargins [2, -3, 1]).pUndercut ≤ 1 ∧
      (aggregateMargins [2, -3, 1]).ciLow ≤ (aggregateMargins [2, -3, 1]).ciHigh :=
  c9_bounds_amended [2, -3, 1] (by decide)

/-- Witness for C3 at the concrete margins list `[1, -1, 2]`. -/
theorem c3_aggregation_exact_witness :
    aggregateMargins [1, -1, 2] =
      { pUndercut := specSuccessFraction [1, -1, 2]
        expectedMargin := specMean [1, -1, 2]
        ciLow := specPercentile [1, -1, 2] 5
        ciHigh := specPercentile [1, -1, 2] 95 } :=
  c3_aggregation_exact [1, -1, 2] (by decide)

/-! ### OutlapModel.sample (`models/outlap.py`, lines 314-362)

The model state after a successful fit (`fit_from_data` or `_load_parameters`)
has `mean_penalty`/`std_penalty` set together; an unfitted model raises.
`sample` draws `n` normal deviates `mean + std * ξ` (from the supplied
generator, or from the process-global `np.random` when `rng is None`) and
clips them with `np.clip(samples, 0.0, 30.0)`. -/

/-- Embedded `OutlapModel` sampling state.  `meanStd` models the pair
(`mean_penalty`, `std_penalty`), which the code sets together;
`compoundModels` models the legacy per-compound table. -/
structure OutlapState where
  meanStd : Option (ℚ × ℚ)
  compoundModels : List (String × ℚ × ℚ)
  fitted : Bool
deriving DecidableEq, Repr

/-- Parameter selection of `OutlapModel.sample`: the specific model
parameters, else the legacy compound model, else the default (1.0, 0.5). -/
def outlapSampleParams (st : OutlapState) (compound : Option String) : ℚ × ℚ :=
  match st.meanStd with
  | some ms => ms
  | none =>
    match compound with
    | some c =>
      match st.compoundModels.lookup c.toUpper with
      | some ms => ms
      | none => (1, 1/2)
    | none => (1, 1/2)

/-- `OutlapModel.sample(compound, n, rng)`: returns the drawn penalties and
the rest of the random stream.  Raises when the model is unfitted. -/
def outlapSample (st : OutlapState) (compound : Option String) (n : ℕ)
    (stream : List ℚ) : Except String (List ℚ × List ℚ) :=
  if ¬ st.fitted then .error "Model must be fitted before sampling"
  else
    let p := outlapSampleParams st compound
    let draws := stream.take n
    .ok (draws.map (fun ξ => clip0to30 (p.1 + p.2 * ξ)), stream.drop n)

/-- C6 (amended): every penalty draw returned by `OutlapModel.sample` on a
fitted model lies within [0, 30] — the bounds of the `np.clip(·, 0.0, 30.0)`
applied to the draws — not within the [0, 8] band used when filtering fitted
penalties. -/
theorem c6_outlap_clip_amended (st : OutlapState) (compound : Option String)
    (n : ℕ) (stream rest : List ℚ) (xs : List ℚ)
    (hok : outlapSample st compound n stream = .ok (xs, rest))
    (x : ℚ) (hx : x ∈ xs) : 0 ≤ x ∧ x ≤ 30 := by
  by_cases hf : st.fitted
  · rw [outlapSample] at hok
    simp only [hf, not_true_eq_false, if_false] at hok
    obtain ⟨hxs, -⟩ := Prod.mk.injEq .. ▸ (Except.ok.injEq .. ▸ hok)
    subst hxs
    obtain ⟨ξ, -, hξ⟩ := List.mem_map.mp hx
    subst hξ
    exact ⟨le_minQ (maxQ_le_right _ 0) (by norm_num), minQ_le_right _ 30⟩
  · rw [outlapSample] at hok
    simp [hf] at hok

/-- The drawn penalties of a sampling call, empty on error. -/
def samplesOf (r : Except String (List ℚ × List ℚ)) : List ℚ :=
  match r with
  | .ok (xs, _) => xs
  | .error _ => []

/-- Witness for C6 (amended): a concrete fitted model and draw. -/
theorem c6_outlap_clip_amended_witness :
    0 ≤ (6 : ℚ) ∧ (6 : ℚ) ≤ 30 :=
  c6_outlap_clip_amended
    { meanStd := some (6, 1/10), compoundModels := [], fitted := true }
    none 1 [0] [] [6]
    (by norm_num [outlapSample, outlapSampleParams, clip0to30, minQ, maxQ]) 6 (by decide)

/-- C6 (counterexample): on a fitted model with `mean_penalty = 6` and
`std_penalty = 0.1` (a state reachable by fitting penalties all equal to 6s,
inside the [0, 8] band), a draw with normal deviate ξ = 40 yields the penalty
10s, which survives the `np.clip(·, 0, 30)` untouched and lies outside the
claimed [0, 8] band. -/
theorem c6_outlap_band_counterexample :
    samplesOf (outlapSample
        { meanStd := some (6, 1/10), compoundModels := [], fitted := true }
        none 1 [40])
      = [10] ∧ ¬ ((10 : ℚ) ≤ 8) := by
  constructor
  · norm_num [samplesOf, outlapSample, outlapSampleParams, clip0to30, minQ, maxQ]
  · norm_num

/-! ### Degradation model prediction (`models/deg.py`, `predict` /
`get_fresh_tire_advantage`, effective definitions after class body) -/

/-- Embedded `DegModel` state relevant to prediction: the fitted quadratic
coefficients (`self.coefficients = [c, b, a]`) and the fitted flag. -/
structure DegState where
  c : ℚ
  b : ℚ
  a : ℚ
  fitted : Bool
  rSquared : ℚ
deriving DecidableEq, Repr

/-- `DegModel.predict(age)`: clamp negative age to 0, evaluate the quadratic,
return `max(0.0, delta)`.  (`predict` is only reached on fitted models.) -/
def degPredict (m : DegState) (age : ℚ) : ℚ :=
  let ag := if age < 0 then 0 else age
  maxQ 0 (m.c + m.b * ag + m.a * ag * ag)

/-- `DegModel.get_fresh_tire_advantage(old_age, new_age)`: returns 0 for an
unfitted model, else `max(0.0, predict(old_age) - predict(new_age))`. -/
def degAdvantage (m : DegState) (oldAge newAge : ℚ) : ℚ :=
  if ¬ m.fitted then 0
  else maxQ 0 (degPredict m oldAge - degPredict m newAge)

/-! ### Multi-lap Monte Carlo simulation (`app.py`,
`simulate_multi_lap_undercut`, lines 311-455)

The `models` dict holds the fitted `deg`, `pit` and `outlap` models (each
possibly `None`).  Note on the pit model: `backend/models/pit.py` defines no
method `sample_pit_time`, so `pit_loss_mean = pit_model.sample_pit_time()`
raises `AttributeError` whenever a fitted pit model is present; this is
modelled by the error branch on `pitFitted`.  When the outlap model is
present, `outlap_model.sample(n=1)` is called WITHOUT the `rng` argument, so
the draw comes from the process-global `np.random` stream (second stream
argument below), not from the caller-seeded generator. -/

/-- The fitted-models dictionary passed to the simulation. -/
structure SimModels where
  deg : Option DegState
  pitFitted : Bool
  outlap : Option (ℚ × ℚ)
deriving DecidableEq, Repr

/-- `outlap_penalties.get(compound_a, 1.4)` fallback table used when no
outlap model is available. -/
def outlapDefaultMean (compound : String) : ℚ :=
  if compound = "SOFT" then 0.8
  else if compound = "MEDIUM" then 1.4
  else if compound = "HARD" then 2.2
  else 1.4

/-- Per-trial loop over laps `ks` in the branch where B pits on lap 1
(`for k in range(2, H + 1)`): A is on tire age k, B on k - 1. -/
def simLapsBPits (deg : Option DegState) :
    List ℕ → ℚ → ℚ → List ℚ → ℚ × ℚ × List ℚ
  | [], ta, tb, s => (ta, tb, s)
  | k :: ks, ta, tb, s =>
    let (ξa, s1) := nextDraw s
    let (ξb, s2) := nextDraw s1
    match deg with
    | none =>
      simLapsBPits deg ks (ta + (0.02 * (k : ℚ) + 0.05 * ξa))
        (tb + (0.02 * ((k : ℚ) - 1) + 0.05 * ξb)) s2
    | some m =>
      simLapsBPits deg ks (ta + (degAdvantage m (k : ℚ) 0 + 0.05 * ξa))
        (tb + (degAdvantage m ((k : ℚ) - 1) 0 + 0.05 * ξb)) s2

/-- Per-trial loop over laps `ks` in the branch where B stays out
(`for k in range(1, H + 1)`): A on fresh tires at age k, B on old tires at
age `tire_age_b + k`. -/
def simLapsBStays (deg : Option DegState) (tireAgeB : ℚ) :
    List ℕ → ℚ → ℚ → List ℚ → ℚ × ℚ × List ℚ
  | [], ta, tb, s => (ta, tb, s)
  | k :: ks, ta, tb, s =>
    let (ξa, s1) := nextDraw s
    let (ξb, s2) := nextDraw s1
    match deg with
    | none =>
      simLapsBStays deg tireAgeB ks (ta + (0.02 * (k : ℚ) + 0.05 * ξa))
        (tb + (0.1 * (tireAgeB + (k : ℚ)) + 0.1 * ξb)) s2
    | some m =>
      simLapsBStays deg tireAgeB ks (ta + (degAdvantage m (k : ℚ) 0 + 0.05 * ξa))
        (tb + (degAdvantage m (tireAgeB + (k : ℚ)) 0 + 0.1 * ξb)) s2

/-- One Monte Carlo trial; returns the margin, whether B pitted on lap 1, and
the rest of the caller-supplied random stream. -/
def simTrial (deg : Option DegState) (gap : ℚ) (H : ℕ) (pPitNext : ℚ)
    (tireAgeB : ℚ) (pitLossMean outlapMean : ℚ) (s : List ℚ) :
    ℚ × Bool × List ℚ :=
  let (ξp, s1) := nextDraw s
  let pitTimeA := pitLossMean + 1 * ξp
  let (ξo, s2) := nextDraw s1
  let outlapA := outlapMean + 0.3 * ξo
  let ta0 := gap + pitTimeA + outlapA
  let (u, s3) := nextDraw s2
  if u < pPitNext then
    -- B pits on lap 1 after A
    let (ξ1, s4) := nextDraw s3
    let lap1B :=
      match deg with
      | none => 0 + 0.1 * ξ1
      | some m => degAdvantage m (tireAgeB + 1) 0 + 0.1 * ξ1
    let (ξbp, s5) := nextDraw s4
    let pitTimeB := pitLossMean + 1 * ξbp
    let (ξbo, s6) := nextDraw s5
    let outlapB := outlapMean + 0.3 * ξbo
    let tb0 := lap1B + pitTimeB + outlapB
    let (ta, tb, s7) := simLapsBPits deg ((List.range (H - 1)).map (· + 2)) ta0 tb0 s6
    (tb - ta, true, s7)
  else
    -- B stays out for all H laps
    let (ta, tb, s4) := simLapsBStays deg tireAgeB ((List.range H).map (· + 1)) ta0 0 s3
    (tb - ta, false, s4)

/-- The `for _ in range(n_samples)` loop: collects margins and the branch
counts (`b_pits_lap1`, `b_stays_out`). -/
def simTrials (deg : Option DegState) (gap : ℚ) (H : ℕ) (pPitNext : ℚ)
    (tireAgeB : ℚ) (pitLossMean outlapMean : ℚ) :
    ℕ → List ℚ → List ℚ × ℕ × ℕ
  | 0, _ => ([], 0, 0)
  | n + 1, s =>
    let (margin, bPits, s1) := simTrial deg gap H pPitNext tireAgeB pitLossMean outlapMean s
    let (ms, pits, stays) := simTrials deg gap H pPitNext tireAgeB pitLossMean outlapMean n s1
    (margin :: ms, (if bPits then 1 else 0) + pits, (if bPits then 0 else 1) + stays)

/-- Simulation metadata returned alongside the margins. -/
structure SimMeta where
  bStaysOut : ℕ
  bPitsLap1 : ℕ
  pitLossMean : ℚ
  outlapPenaltyMean : ℚ
  hLaps : ℕ
  pPitNext : ℚ
  tireAgeBInit : ℚ
deriving DecidableEq, Repr

/-- `simulate_multi_lap_undercut(models, current_gap, compound_a, H,
p_pit_next, tire_age_b, n_samples, rng)`.  `rng` is the caller-seeded
generator stream; `globalRng` is the process-global `np.random` stream, which
is consumed by `outlap_model.sample(n=1)` (no `rng` passed) and returned so a
subsequent call continues from the advanced global state.  A present pit
model raises `AttributeError` (`PitModel` has no method `sample_pit_time`). -/
def simulateMultiLapUndercut (models : SimModels) (gap : ℚ) (compoundA : String)
    (H : ℕ) (pPitNext : ℚ) (tireAgeB : ℚ) (nSamples : ℕ)
    (rng : List ℚ) (globalRng : List ℚ) :
    Except String (List ℚ × SimMeta × List ℚ) :=
  if models.pitFitted then
    .error "AttributeError: PitModel object has no attribute sample_pit_time"
  else
    let pitLossMean : ℚ := 24
    let (outlapMean, g1) :=
      match models.outlap with
      | none => (outlapDefaultMean compoundA, globalRng)
      | some (mean, std) =>
        let (ξ, g) := nextDraw globalRng
        (clip0to30 (mean + std * ξ), g)
    let (margins, pits, stays) :=
      simTrials models.deg gap H pPitNext tireAgeB pitLossMean outlapMean nSamples rng
    .ok (margins,
      { bStaysOut := stays, bPitsLap1 := pits, pitLossMean := pitLossMean
        outlapPenaltyMean := outlapMean, hLaps := H, pPitNext := pPitNext
        tireAgeBInit := tireAgeB }, g1)

/-- Margins of a simulation run (empty on error). -/
def simMarginsOf (r : Except String (List ℚ × SimMeta × List ℚ)) : List ℚ :=
  match r with
  | .ok (ms, _, _) => ms
  | .error _ => []

/-- Metadata of a simulation run. -/
def simMetaOf (r : Except String (List ℚ × SimMeta × List ℚ)) : Option SimMeta :=
  match r with
  | .ok (_, meta, _) => some meta
  | .error _ => none

/-- Remaining global `np.random` stream after a simulation run. -/
def simGlobalOf (r : Except String (List ℚ × SimMeta × List ℚ)) (dflt : List ℚ) :
    List ℚ :=
  match r with
  | .ok (_, _, g) => g
  | .error _ => dflt

/-- C1: determinism failure.  Two calls of `simulate_multi_lap_undercut` with
identical scenario, identical fitted models (outlap fitted with mean 2s, std
1s; no pit or degradation model) and an identically seeded caller generator
(stream `[0, 0, 1, 0, 0]`) do NOT produce identical per-trial margins or
metadata: the pre-loop draw `outlap_model.sample(n=1)` is taken from the
process-global `np.random` stream (here `[0, 1]`), which advances between the
calls, so `outlap_penalty_mean` is 2 on the first call and 3 on the second
and every margin shifts by 1s; the aggregated expected margins differ too. -/
theorem c1_sim_determinism_bug :
    let models : SimModels := ⟨none, false, some (2, 1)⟩
    let run1 := simulateMultiLapUndercut models 5 "SOFT" 1 0 5 1 [0, 0, 1, 0, 0] [0, 1]
    let run2 := simulateMultiLapUndercut models 5 "SOFT" 1 0 5 1 [0, 0, 1, 0, 0]
      (simGlobalOf run1 [])
    simMarginsOf run1 ≠ simMarginsOf run2 ∧
      simMetaOf run1 ≠ simMetaOf run2 ∧
      (aggregateMargins (simMarginsOf run1)).expectedMargin ≠
        (aggregateMargins (simMarginsOf run2)).expectedMargin := by
  refine ⟨by with_unfolding_all decide, by with_unfolding_all decide,
    by with_unfolding_all decide⟩

/-- C2: gap monotonicity failure.  With a fitted linear degradation model
(advantage 0.45 s per lap of age), no pit/outlap model, horizon H = 10,
p_pit_next = 0, tire_age_b = 10, one trial and the all-zeros seeded stream,
the simulated margin is `20.2 - gap`, so the small-gap scenario
(gap_now = 5 s) succeeds with probability 1 while the large-gap scenario
(gap_now = 30 s) succeeds with probability 0: the code's success probability
is antitone in the gap (`current_gap` is added to A's cumulative time), the
opposite of the claimed strict increase. -/
theorem c2_gap_monotonicity_bug :
    let models : SimModels := ⟨some ⟨0, 9/20, 0, true, 1⟩, false, none⟩
    let run := fun gap : ℚ =>
      aggregateMargins (simMarginsOf
        (simulateMultiLapUndercut models gap "SOFT" 10 0 10 1 (List.replicate 23 0) []))
    (run 5).pUndercut = 1 ∧ (run 30).pUndercut = 0 ∧
      ¬ ((run 5).pUndercut < (run 30).pUndercut) := by
  refine ⟨by with_unfolding_all decide, by with_unfolding_all decide,
    by with_unfolding_all decide⟩

/-- C9 (counterexample): a simulation run of 21 trials (no fitted models,
gap 5 s, H = 1, p_pit_next = 0, tire_age_b = 5; seeded stream all zeros
except one extreme final draw) produces 20 margins of -29.22 s and one of
70.78 s.  The empirical 95th percentile of these margins is -29.22 s but the
sample mean is about -24.46 s, so `ci_high < expected_margin`: the expected
margin does NOT lie inside the 5th/95th-percentile interval. -/
theorem c9_mean_outside_ci_counterexample :
    let agg := aggregateMargins (simMarginsOf
      (simulateMultiLapUndercut ⟨none, false, none⟩ 5 "SOFT" 1 0 5 21
        (List.replicate 104 0 ++ [1000]) []))
    agg.ciHigh < agg.expectedMargin ∧
      ¬ (agg.expectedMargin ≤ agg.ciHigh) := by
  refine ⟨by with_unfolding_all decide, by with_unfolding_all decide⟩

/-! ### Tire age computation (`services/tyre_age.py`)

A lap row carries the mandatory identity columns (`driver_number`,
`lap_number`), the optional `is_pit_out_lap` flag (an absent column behaves
as all-False), the optional `track_status` and `lap_time` columns, and `rest`
standing for all remaining column values of the row.  A pit row carries
`driver_number`, `lap_number` and `rest` (pit duration etc.).

`compute_tyre_age` copies the input frame, computes the SC/VSC lap-number set
over the whole frame, and then, per driver, sorts that driver's rows by lap
number, walks them accumulating the age, and assigns the resulting age array
back through the boolean driver mask — positionally, i.e. onto the driver's
rows in their ORIGINAL order (`result_df.loc[driver_mask, 'tyre_age'] =
tire_ages` with a plain ndarray on the right). -/

/-- One row of the laps DataFrame. -/
structure LapRow where
  driver : ℤ
  lap : ℤ
  pitOut : Bool
  status : Option String
  time : Option ℚ
  rest : String
deriving DecidableEq, Repr

/-- One row of the pit-events DataFrame. -/
structure PitRow where
  driver : ℤ
  lap : ℤ
  rest : String
deriving DecidableEq, Repr

/-- `is_safety_car_lap(lap_row)`: track status 4/6/SC/VSC, else lap time above
`90.0 * (1 + 0.30) = 117` seconds. -/
def isSafetyCarLap (r : LapRow) : Bool :=
  (match r.status with
   | some t => t = "4" ∨ t = "6" ∨ t = "SC" ∨ t = "VSC"
   | none => False) ||
  (match r.time with
   | some t => (117 : ℚ) < t
   | none => False)

/-- `_identify_sc_vsc_laps`: the set (here: list) of lap NUMBERS flagged as
SC/VSC anywhere in the frame (method 1, the `track_status` scan, flags a
subset of what method 2's per-row `is_safety_car_lap` scan flags, so the
union is the method-2 scan). -/
def scVscLaps (laps : List LapRow) : List ℤ :=
  (laps.filter isSafetyCarLap).map (·.lap)

/-- `_get_driver_pit_events`: the pit lap numbers of one driver.  The code
sorts by lap number and drops duplicate lap numbers keeping the last entry;
the downstream age walk only tests membership of a lap number, for which the
sorted-deduplicated frame and the raw filter have the same members. -/
def pitLapsOf (pits : List PitRow) (d : ℤ) : List ℤ :=
  (pits.filter (fun p => p.driver = d)).map (·.lap)

/-- The age walk of `_calculate_driver_tire_ages` over the lap-number-sorted
rows of one driver: pit lap (pit event or pit-out flag) resets the age to 1;
an SC/VSC lap holds the current age; otherwise the age increments (the very
first row yields 1).  `isFirst` tracks `i > 0` of the Python loop. -/
def agesFrom (pitLaps scVsc : List ℤ) :
    List LapRow → ℤ → Bool → List ℤ
  | [], _, _ => []
  | r :: rs, age, isFirst =>
    if r.lap ∈ pitLaps ∨ r.pitOut then
      1 :: agesFrom pitLaps scVsc rs 1 false
    else if r.lap ∈ scVsc then
      age :: agesFrom pitLaps scVsc rs age false
    else
      let a := if isFirst then 1 else age + 1
      a :: agesFrom pitLaps scVsc rs a false

/-- `driver_laps = result_df[driver_mask].copy().sort_values('lap_number')`. -/
def sortByLap (rows : List LapRow) : List LapRow :=
  List.insertionSort (fun x y => x.lap ≤ y.lap) rows

/-- Tire ages computed for one driver, in lap-number-sorted order. -/
def driverAges (laps : List LapRow) (pits : List PitRow) (d : ℤ) : List ℤ :=
  agesFrom (pitLapsOf pits d) (scVscLaps laps)
    (sortByLap (laps.filter (fun r => r.driver = d))) 1 true

/-- `compute_tyre_age(laps_df, pits_df)`: each input row, in the original
frame order, paired with the `tyre_age` value it receives.  The assignment
`result_df.loc[driver_mask, 'tyre_age'] = tire_ages` writes the age array
positionally onto the driver's rows in their original order (the array was
computed over the driver's SORTED rows). -/
def computeTyreAge (laps : List LapRow) (pits : List PitRow) :
    List (LapRow × ℤ) :=
  laps.enum.map (fun p =>
    let d := p.2.driver
    let mine := (laps.enum.filter (fun q => q.2.driver = d)).map (·.1)
    (p.2, (driverAges laps pits d).getD (mine.indexOf p.1) 1))

/-- C10: `compute_tyre_age` is frame-preserving: the output consists of
exactly the input lap rows, in order, with every pre-existing column value
unchanged, the only addition being the `tyre_age` value paired with each row
(in this embedding, the input rows never mutate — projecting the annotation
away returns the input); and an empty laps input yields an empty output
(which, in the code, still carries the `tyre_age` column:
`result['tyre_age'] = pd.Series([], dtype=int)`, here reflected by the
annotated result type). -/
theorem c10_frame_preservation (laps : List LapRow) (pits : List PitRow) :
    (computeTyreAge laps pits).map Prod.fst = laps ∧
      computeTyreAge [] pits = [] := by
  constructor
  · rw [computeTyreAge, List.map_map]
    exact List.enum_map_snd laps
  · rfl

/-- C7: positional-assignment failure.  Driver 1's rows arrive in the order
[lap 2, lap 1] with no pit events, no pit-out flags and no SC laps.  The age
array [1, 2] is computed over the lap-number-sorted rows but assigned back
positionally, so the lap-2 row receives age 1 and the lap-1 row receives age
2 — the opposite of the claimed 1-based position in the lap-number-sorted
sequence (lap 1 ↦ 1, lap 2 ↦ 2). -/
theorem c7_positional_age_bug :
    let r2 : LapRow := ⟨1, 2, false, none, none, "p2"⟩
    let r1 : LapRow := ⟨1, 1, false, none, none, "p1"⟩
    computeTyreAge [r2, r1] [] = [(r2, 1), (r1, 2)] ∧
      ¬ computeTyreAge [r2, r1] [] = [(r2, 2), (r1, 1)] := by
  refine ⟨by decide, by decide⟩

/-- C8: positional-assignment failure for pit resets.  Driver 1's rows arrive
in the order [lap 2, lap 1]; two duplicate pit entries share lap number 1
(they collapse to one logical stop).  Over the sorted rows the ages are
[1, 2] (lap 1 is the pit lap and resets to 1), but the positional assignment
gives the lap-1 row — the row matching the pit event — age 2, not the claimed
age 1. -/
theorem c8_pit_reset_bug :
    let r2 : LapRow := ⟨1, 2, false, none, none, "p2"⟩
    let r1 : LapRow := ⟨1, 1, false, none, none, "p1"⟩
    let pits : List PitRow := [⟨1, 1, "stop-a"⟩, ⟨1, 1, "stop-b"⟩]
    computeTyreAge [r2, r1] pits = [(r2, 1), (r1, 2)] ∧
      ¬ (r1, (1 : ℤ)) ∈ computeTyreAge [r2, r1] pits := by
  refine ⟨by decide, by decide⟩

/-! ### ParameterStore retrieval (`services/model_params.py`,
`get_degradation_params` lines 182-256 and `get_outlap_params` lines 258-321)

Stored records; `rmse` holds whatever value was persisted. -/

/-- A stored `DegradationParameters` record. -/
structure DegParams where
  circuit : String
  compound : String
  a : ℚ
  b : ℚ
  c : ℚ
  r2 : ℚ
  rmse : ℚ
  nSamples : ℤ
  scope : String
deriving DecidableEq, Repr

/-- A stored `OutlapParameters` record. -/
structure OutlapParams where
  circuit : String
  compound : String
  meanPenalty : ℚ
  stdPenalty : ℚ
  nSamples : ℤ
  scope : String
deriving DecidableEq, Repr

/-- Quality gate of `get_degradation_params`:
`(candidates['r2'] >= min_r2) & (candidates['n_samples'] >= min_samples)`. -/
def degGate (minR2 : ℚ) (minSamples : ℤ) (p : DegParams) : Bool :=
  decide (minR2 ≤ p.r2) && decide (minSamples ≤ p.nSamples)

/-- Level 1 candidates: exact circuit + compound match (case-insensitive;
the query is lowered/uppered and stripped, the stored strings only
lowered/uppered, as in the code). -/
def degLevel1 (df : List DegParams) (circuit compound : String) : List DegParams :=
  df.filter (fun p =>
    p.circuit.toLower == circuit.toLower.trim &&
    p.compound.toUpper == compound.toUpper.trim)

/-- Level 2 candidates: compound match with scope `compound_only`. -/
def degLevel2 (df : List DegParams) (compound : String) : List DegParams :=
  df.filter (fun p =>
    p.compound.toUpper == compound.toUpper.trim && p.scope == "compound_only")

/-- Level 3 candidates: scope `global`. -/
def degLevel3 (df : List DegParams) : List DegParams :=
  df.filter (fun p => p.scope == "global")

/-- `get_degradation_params(circuit, compound, min_r2, min_samples)`:
walk the three fallback levels; at each level filter by the quality gate and
return the row selected by `quality_candidates['r2'].idxmax()` — the FIRST
row attaining the maximal r2. -/
def getDegradationParams (df : List DegParams) (circuit compound : String)
    (minR2 : ℚ) (minSamples : ℤ) : Option DegParams :=
  if df.isEmpty then none
  else
    match firstMaxBy (·.r2) ((degLevel1 df circuit compound).filter (degGate minR2 minSamples)) with
    | some p => some p
    | none =>
      match firstMaxBy (·.r2) ((degLevel2 df compound).filter (degGate minR2 minSamples)) with
      | some p => some p
      | none =>
        firstMaxBy (·.r2) ((degLevel3 df).filter (degGate minR2 minSamples))

/-- Sample-size gate of `get_outlap_params`:
`candidates['n_samples'] >= min_samples` (there is no quality score at all in
outlap records). -/
def outlapGate (minSamples : ℤ) (p : OutlapParams) : Bool :=
  decide (minSamples ≤ p.nSamples)

/-- Outlap level 1 candidates. -/
def outlapLevel1 (df : List OutlapParams) (circuit compound : String) :
    List OutlapParams :=
  df.filter (fun p =>
    p.circuit.toLower == circuit.toLower.trim &&
    p.compound.toUpper == compound.toUpper.trim)

/-- Outlap level 2 candidates. -/
def outlapLevel2 (df : List OutlapParams) (compound : String) : List OutlapParams :=
  df.filter (fun p =>
    p.compound.toUpper == compound.toUpper.trim && p.scope == "compound_only")

/-- Outlap level 3 candidates. -/
def outlapLevel3 (df : List OutlapParams) : List OutlapParams :=
  df.filter (fun p => p.scope == "global")

/-- `get_outlap_params(circuit, compound, min_samples)`: same level walk, but
the only filter is the sample count and the selected row is
`quality_candidates['n_samples'].idxmax()` — the FIRST row with the most
samples. -/
def getOutlapParams (df : List OutlapParams) (circuit compound : String)
    (minSamples : ℤ) : Option OutlapParams :=
  if df.isEmpty then none
  else
    match firstMaxBy (·.nSamples) ((outlapLevel1 df circuit compound).filter (outlapGate minSamples)) with
    | some p => some p
    | none =>
      match firstMaxBy (·.nSamples) ((outlapLevel2 df compound).filter (outlapGate minSamples)) with
      | some p => some p
      | none =>
        firstMaxBy (·.nSamples) ((outlapLevel3 df).filter (outlapGate minSamples))

/-- Spec-side selection, written from the amended claim's words: the FIRST
stored candidate whose key is at least every candidate's key — the first
occurrence of the maximum, so ties are broken by stored order. -/
def firstMaxSpec [LinearOrder β] (f : α → β) (l : List α) : Option α :=
  l.find? (fun x => l.all (fun y => decide (f y ≤ f x)))

theorem find?_congr_on {p q : α → Bool} :
    ∀ {l : List α}, (∀ x ∈ l, p x = q x) → l.find? p = l.find? q := by
  intro l
  induction l with
  | nil => intro _; rfl
  | cons a as ih =>
    intro h
    have ha : p a = q a := h a (List.mem_cons_self a as)
    cases hqa : q a with
    | true =>
      rw [List.find?_cons_of_pos _ (ha.trans hqa), List.find?_cons_of_pos _ hqa]
    | false =>
      rw [List.find?_cons_of_neg _ (by rw [ha, hqa]; simp),
        List.find?_cons_of_neg _ (by rw [hqa]; simp)]
      exact ih (fun x hx => h x (List.mem_cons_of_mem a hx))

/-- The program's selection (`idxmax`, embedded as `firstMaxBy`) equals the
spec-side first-occurrence-of-the-maximum selection on EVERY list: the
maximum is attained and ties are broken by stored order, never by any other
key. -/
theorem firstMaxBy_eq_firstMaxSpec [LinearOrder β] (f : α → β) :
    ∀ l : List α, firstMaxBy f l = firstMaxSpec f l := by
  intro l
  induction l with
  | nil => rfl
  | cons a as ih =>
    rw [firstMaxBy, firstMaxSpec]
    by_cases hall : ∀ y ∈ as, f y ≤ f a
    · have hpa : ((a :: as).all (fun y => decide (f y ≤ f a))) = true := by
        rw [List.all_eq_true]
        intro y hy
        rcases List.mem_cons.mp hy with rfl | hy2
        · exact decide_eq_true (le_refl _)
        · exact decide_eq_true (hall y hy2)
      have hfind := List.find?_cons_of_pos
        (p := fun x => (a :: as).all (fun y => decide (f y ≤ f x))) (a := a) as hpa
      rw [hfind]
      cases hrec : firstMaxBy f as with
      | none => rfl
      | some y0 =>
        have hy0a : f y0 ≤ f a := hall y0 (firstMaxBy_mem f hrec)
        simp [hy0a]
    · push_neg at hall
      obtain ⟨y, hy, hylt⟩ := hall
      have hane : as ≠ [] := by
        intro hnil
        rw [hnil] at hy
        simp at hy
      obtain ⟨y0, hy0⟩ := firstMaxBy_of_ne_nil f hane
      have hymax := firstMaxBy_le f hy0
      have hlt : f a < f y0 := lt_of_lt_of_le hylt (hymax y hy)
      have hpa : ((a :: as).all (fun z => decide (f z ≤ f a))) = false := by
        rcases Bool.eq_false_or_eq_true ((a :: as).all (fun z => decide (f z ≤ f a)))
          with htrue | hfalse
        · exact absurd (of_decide_eq_true (List.all_eq_true.mp htrue y
            (List.mem_cons_of_mem a hy))) (not_le.mpr hylt)
        · exact hfalse
      have hfind := List.find?_cons_of_neg
        (p := fun x => (a :: as).all (fun z => decide (f z ≤ f x))) (a := a) as
        (by show ¬ ((a :: as).all (fun z => decide (f z ≤ f a))) = true
            rw [hpa]; simp)
      rw [hfind, hy0]
      have hnle : ¬ f y0 ≤ f a := not_le.mpr hlt
      simp only [if_neg hnle]
      have hcong : ∀ x ∈ as,
          ((a :: as).all (fun z => decide (f z ≤ f x)))
            = (as.all (fun z => decide (f z ≤ f x))) := by
        intro x hx
        cases hq : as.all (fun z => decide (f z ≤ f x)) with
        | true =>
          have hyx : f y ≤ f x :=
            of_decide_eq_true (List.all_eq_true.mp hq y hy)
          have hax : decide (f a ≤ f x) = true :=
            decide_eq_true (le_of_lt (lt_of_lt_of_le hylt hyx))
          simp [List.all_cons, hax, hq]
        | false => simp [List.all_cons, hq]
      rw [find?_congr_on hcong]
      exact (ih.symm.trans hy0).symm

/-- Spec-side three-level degradation retrieval, from the amended claim: at
each level in the fixed order circuit+compound, compound-only, global, retain
the candidates passing `r2 ≥ min_r2` and `n_samples ≥ min_samples` and return
the first retained candidate attaining the maximal r2; when a level retains
nothing, fall through to the next; `NONE` after the last level. -/
def specDegSelect (df : List DegParams) (circuit compound : String)
    (minR2 : ℚ) (minSamples : ℤ) : Option DegParams :=
  match firstMaxSpec (fun p : DegParams => p.r2)
      ((degLevel1 df circuit compound).filter (degGate minR2 minSamples)) with
  | some p => some p
  | none =>
    match firstMaxSpec (fun p : DegParams => p.r2)
        ((degLevel2 df compound).filter (degGate minR2 minSamples)) with
    | some p => some p
    | none =>
      firstMaxSpec (fun p : DegParams => p.r2)
        ((degLevel3 df).filter (degGate minR2 minSamples))

/-- Spec-side three-level outlap retrieval, from the amended claim: the same
level walk, retaining by `n_samples ≥ min_samples` only (outlap records carry
no quality score) and returning the first retained candidate attaining the
maximal sample count. -/
def specOutlapSelect (df : List OutlapParams) (circuit compound : String)
    (minSamples : ℤ) : Option OutlapParams :=
  match firstMaxSpec (fun p : OutlapParams => p.nSamples)
      ((outlapLevel1 df circuit compound).filter (outlapGate minSamples)) with
  | some p => some p
  | none =>
    match firstMaxSpec (fun p : OutlapParams => p.nSamples)
        ((outlapLevel2 df compound).filter (outlapGate minSamples)) with
    | some p => some p
    | none =>
      firstMaxSpec (fun p : OutlapParams => p.nSamples)
        ((outlapLevel3 df).filter (outlapGate minSamples))

/-- C4 (amended): for EVERY stored parameter set, query and thresholds, the
two getters equal the spec-side selectors: at each of the three fallback
levels, in order, `get_degradation_params` retains only candidates with
`r2 ≥ min_r2` and `n_samples ≥ min_samples` and returns the FIRST retained
candidate (in stored order) attaining the maximal r2 — ties broken by stored
position, never by sample count — falling through to the next level when a
level retains nothing; `get_outlap_params` does the same with retention by
`n_samples ≥ min_samples` alone (outlap records have no quality score and
the getter takes no quality threshold) and the first candidate of maximal
sample count.  The empty-store shortcut of the code is also covered: both
sides return NONE there. -/
theorem c4_retrieval_amended (df : List DegParams) (odf : List OutlapParams)
    (circuit compound : String) (minR2 : ℚ) (minSamples minSamplesO : ℤ) :
    getDegradationParams df circuit compound minR2 minSamples
        = specDegSelect df circuit compound minR2 minSamples ∧
      getOutlapParams odf circuit compound minSamplesO
        = specOutlapSelect odf circuit compound minSamplesO := by
  constructor
  · rw [getDegradationParams, specDegSelect]
    cases df with
    | nil => rfl
    | cons a as =>
      simp only [List.isEmpty_cons, Bool.false_eq_true, if_false,
        firstMaxBy_eq_firstMaxSpec]
  · rw [getOutlapParams, specOutlapSelect]
    cases odf with
    | nil => rfl
    | cons a as =>
      simp only [List.isEmpty_cons, Bool.false_eq_true, if_false,
        firstMaxBy_eq_firstMaxSpec]

/-- C4 (counterexample): both halves of the original claim fail.
Degradation: two level-1 records for (monaco, SOFT) share the quality score
r2 = 0.5 with sample counts 10 (stored first) and 20; the getter returns the
FIRST record (`idxmax` keeps the first maximum) — the one with the SMALLER
sample count — refuting the claimed tie-break by larger sample count.
Outlap: of two level-1 records, the first has the tighter fit (std 0.1 vs 5)
and fewer samples (10 vs 20); the getter returns the second, selecting purely
by maximal sample count with no quality filtering or quality-first selection
(outlap records carry no quality score and `get_outlap_params` takes no
quality threshold), refuting the claimed quality-gated, quality-maximal
selection for the outlap getter. -/
theorem c4_tie_break_counterexample :
    let pA : DegParams := ⟨"monaco", "SOFT", 0, 0, 0, 1/2, 0, 10, "circuit_compound"⟩
    let pB : DegParams := ⟨"monaco", "SOFT", 0, 0, 0, 1/2, 0, 20, "circuit_compound"⟩
    let oA : OutlapParams := ⟨"monaco", "SOFT", 1, 1/10, 10, "circuit_compound"⟩
    let oB : OutlapParams := ⟨"monaco", "SOFT", 1, 5, 20, "circuit_compound"⟩
    (getDegradationParams [pA, pB] "monaco" "SOFT" (1/10) 5 = some pA ∧
      pA.r2 = pB.r2 ∧ pA.nSamples < pB.nSamples ∧
      degGate (1/10) 5 pB = true ∧ pB ∈ degLevel1 [pA, pB] "monaco" "SOFT") ∧
    (getOutlapParams [oA, oB] "monaco" "SOFT" 5 = some oB ∧
      oA.stdPenalty < oB.stdPenalty ∧ oA.nSamples < oB.nSamples ∧
      outlapGate 5 oA = true ∧ oA ∈ outlapLevel1 [oA, oB] "monaco" "SOFT") := by
  refine ⟨⟨by with_unfolding_all decide, by with_unfolding_all decide,
    by with_unfolding_all decide, by with_unfolding_all decide,
    by with_unfolding_all decide⟩,
    ⟨by with_unfolding_all decide, by with_unfolding_all decide,
    by with_unfolding_all decide, by with_unfolding_all decide,
    by with_unfolding_all decide⟩⟩

/-! ### Degradation model fitting (`models/deg.py`)

`DegModel.fit` is defined twice in the class body; the second definition
(lines 528-632) overrides the first, so the effective `fit` cleans the data,
removes 3σ outliers, fits the quadratic with a plain `np.linalg.lstsq` and
marks the model fitted — with NO cross-validation and NO quality threshold.
The k-fold gate exists only in `_fit_robust_regression` (lines 144-199, used
by `fit_from_data`), which computes `_kfold_validation(X, lap_deltas, k=5)`
and returns `None` when it is below the hardcoded 0.1.

Modelling notes: `np.linalg.lstsq` is embedded through the normal equations
and treated as failing on a singular Gram matrix (the library would return a
minimum-norm solution there; no claim exercises that corner, and in
`_robust_least_squares`/`fit` a failure maps to the raised/abandoned path).
`rmse` values produced by fitting are stored SQUARED here (`np.sqrt` leaves
ℚ); no claim inspects them. -/

/-- Kernel-evaluable absolute value on ℚ. -/
def absQ (x : ℚ) : ℚ := if x < 0 then -x else x

/-- Determinant of a 3×3 matrix given row-wise. -/
def det3 (a b c d e f g h i : ℚ) : ℚ :=
  a * (e * i - f * h) - b * (d * i - f * g) + c * (d * h - e * g)

/-- `np.linalg.lstsq` for the quadratic design `[1, x, x²]` on points
`(x, y)`, via the normal equations (Cramer's rule); `none` on a singular Gram
matrix.  Returns `(c, b, a)`: constant, linear, quadratic coefficient. -/
def lstsq3 (pts : List (ℚ × ℚ)) : Option (ℚ × ℚ × ℚ) :=
  let n : ℚ := (pts.length : ℚ)
  let s1 := (pts.map (fun p => p.1)).sum
  let s2 := (pts.map (fun p => p.1 * p.1)).sum
  let s3 := (pts.map (fun p => p.1 * p.1 * p.1)).sum
  let s4 := (pts.map (fun p => p.1 * p.1 * p.1 * p.1)).sum
  let t0 := (pts.map (fun p => p.2)).sum
  let t1 := (pts.map (fun p => p.1 * p.2)).sum
  let t2 := (pts.map (fun p => p.1 * p.1 * p.2)).sum
  let d := det3 n s1 s2 s1 s2 s3 s2 s3 s4
  if d = 0 then none
  else some (det3 t0 s1 s2 t1 s2 s3 t2 s3 s4 / d,
             det3 n t0 s2 s1 t1 s3 s2 t2 s4 / d,
             det3 n s1 t0 s1 s2 t1 s2 s3 t2 / d)

/-- Weighted least squares `lstsq(Xᵀ W X, Xᵀ W y)` for the same design, with
per-point weights `ws`. -/
def lstsq3w (ws : List ℚ) (pts : List (ℚ × ℚ)) : Option (ℚ × ℚ × ℚ) :=
  let wp := ws.zip pts
  let n := (wp.map (fun q => q.1)).sum
  let s1 := (wp.map (fun q => q.1 * q.2.1)).sum
  let s2 := (wp.map (fun q => q.1 * q.2.1 * q.2.1)).sum
  let s3 := (wp.map (fun q => q.1 * q.2.1 * q.2.1 * q.2.1)).sum
  let s4 := (wp.map (fun q => q.1 * q.2.1 * q.2.1 * q.2.1 * q.2.1)).sum
  let t0 := (wp.map (fun q => q.1 * q.2.2)).sum
  let t1 := (wp.map (fun q => q.1 * q.2.1 * q.2.2)).sum
  let t2 := (wp.map (fun q => q.1 * q.2.1 * q.2.1 * q.2.2)).sum
  let d := det3 n s1 s2 s1 s2 s3 s2 s3 s4
  if d = 0 then none
  else some (det3 t0 s1 s2 t1 s2 s3 t2 s3 s4 / d,
             det3 n t0 s2 s1 t1 s3 s2 t2 s4 / d,
             det3 n s1 t0 s1 s2 t1 s2 s3 t2 / d)

/-- Evaluate the quadratic `(c, b, a)` at `x`. -/
def evalQuad (co : ℚ × ℚ × ℚ) (x : ℚ) : ℚ :=
  co.1 + co.2.1 * x + co.2.2 * x * x

/-- `np.allclose(coeffs, coeffs_new, rtol=1e-6)` (default `atol = 1e-8`):
componentwise `|a - b| ≤ atol + rtol * |b|`. -/
def allclose3 (c1 c2 : ℚ × ℚ × ℚ) : Bool :=
  decide (absQ (c1.1 - c2.1) ≤ 1/100000000 + (1/1000000) * absQ c2.1) &&
  decide (absQ (c1.2.1 - c2.2.1) ≤ 1/100000000 + (1/1000000) * absQ c2.2.1) &&
  decide (absQ (c1.2.2 - c2.2.2) ≤ 1/100000000 + (1/1000000) * absQ c2.2.2)

/-- The reweighting loop of `_robust_least_squares` (Huber weights at
`1.345 * MAD`), with the iteration count as fuel (`max_iter = 50`).
A zero MAD stops; a singular weighted system keeps the previous coefficients;
convergence (`np.allclose`) stops BEFORE adopting the new coefficients. -/
def irlsIter (pts : List (ℚ × ℚ)) : ℕ → (ℚ × ℚ × ℚ) → ℚ × ℚ × ℚ
  | 0, co => co
  | fuel + 1, co =>
    let residuals := pts.map (fun p => p.2 - evalQuad co p.1)
    let med := medianQ residuals
    let mad := medianQ (residuals.map (fun r => absQ (r - med)))
    if mad = 0 then co
    else
      let thr := (269/200) * mad
      let ws := residuals.map (fun r => if absQ r ≤ thr then 1 else thr / absQ r)
      match lstsq3w ws pts with
      | none => co
      | some coNew => if allclose3 co coNew then co else irlsIter pts fuel coNew

/-- `_robust_least_squares(X, y)`: initial OLS fit then iterative
reweighting; `none` models the raised `ValueError` on a singular system. -/
def robustLS (pts : List (ℚ × ℚ)) : Option (ℚ × ℚ × ℚ) :=
  (lstsq3 pts).map (irlsIter pts 50)

/-- `_kfold_validation(X, y, k)` on points `(x, y)`: contiguous folds of size
`n / k` (the last fold absorbs the remainder), each scored by out-of-sample
R² (0 when the test variance is zero); folds with under 3 training points or
a failed fit are skipped; the result is the mean score (0 when `n < k` or no
fold produced a score). -/
def kfoldValidation (pts : List (ℚ × ℚ)) (k : ℕ) : ℚ :=
  let n := pts.length
  if n < k then 0
  else
    let foldSize := n / k
    let scores := (List.range k).filterMap (fun i =>
      let start := i * foldSize
      let stop := if i < k - 1 then start + foldSize else n
      let test := (pts.drop start).take (stop - start)
      let train := pts.take start ++ pts.drop stop
      if train.length < 3 then none
      else
        match robustLS train with
        | none => none
        | some co =>
          let ssRes := (test.map (fun p =>
            (p.2 - evalQuad co p.1) * (p.2 - evalQuad co p.1))).sum
          let ybar := meanQ (test.map (fun p => p.2))
          let ssTot := (test.map (fun p => (p.2 - ybar) * (p.2 - ybar))).sum
          some (if 0 < ssTot then 1 - ssRes / ssTot else 0))
    if scores.isEmpty then 0 else meanQ scores

/-- The `(age, lap_delta)` points of `_fit_robust_regression` on data points
`(tire_age, lap_time)`: deltas are relative to the 5th-percentile baseline. -/
def degDeltaPoints (pts : List (ℚ × ℚ)) : List (ℚ × ℚ) :=
  let base := percentileQ (pts.map (fun p => p.2)) 5
  pts.map (fun p => (p.1, p.2 - base))

/-- `_fit_robust_regression(data, ...)` on the `(tire_age, lap_time)` points
of one circuit-compound group: robust quadratic fit, then the quality gate —
`None` when the 5-fold cross-validated R² is below the hardcoded 0.1.  The
stored `r2` is the k-fold R², `rmse` is stored squared (see section note). -/
def fitRobustRegression (circuit compound : String) (pts : List (ℚ × ℚ)) :
    Option DegParams :=
  let dpts := degDeltaPoints pts
  match robustLS dpts with
  | none => none
  | some co =>
    let ssRes := (dpts.map (fun p =>
      (p.2 - evalQuad co p.1) * (p.2 - evalQuad co p.1))).sum
    let rmseSq := ssRes / (dpts.length : ℚ)
    let kf := kfoldValidation dpts 5
    if kf < 1/10 then none
    else some ⟨circuit, compound, co.2.2, co.2.1, co.1, kf, rmseSq,
      (pts.length : ℤ), "circuit_compound"⟩

/-! The effective `DegModel.fit` (second definition, `deg.py` lines 528-632).
Input rows are `(lap_time?, tire_age?)` after column resolution;
`dropna`/`to_numeric` keep the rows with both values present. -/

/-- `dropna` over the two selected columns. -/
def degFitClean (rows : List (Option ℚ × Option ℚ)) : List (ℚ × ℚ) :=
  rows.filterMap (fun r =>
    match r.1, r.2 with
    | some t, some a => some (t, a)
    | _, _ => none)

/-- The 3σ outlier mask of `fit` (`|lap_time - mean| <= 3 * std` with the
pandas sample standard deviation, ddof = 1), compared in squared form to stay
in ℚ. -/
def degFitKept (rows : List (Option ℚ × Option ℚ)) : List (ℚ × ℚ) :=
  let clean := degFitClean rows
  let times := clean.map (fun p => p.1)
  let m := meanQ times
  let varS := (times.map (fun t => (t - m) * (t - m))).sum / ((times.length : ℚ) - 1)
  clean.filter (fun p => decide ((p.1 - m) * (p.1 - m) ≤ 9 * varS))

/-- The `(age, delta)` points that `fit` regresses on: deltas relative to the
5th-percentile baseline of the surviving lap times. -/
def degFitPoints (rows : List (Option ℚ × Option ℚ)) : List (ℚ × ℚ) :=
  let kept := degFitKept rows
  let base := percentileQ (kept.map (fun p => p.1)) 5
  kept.map (fun p => (p.2, p.1 - base))

/-- The effective `DegModel.fit(df_laps)` (the second definition in the class
body, which overrides the robust first one): validate, clean, drop 3σ
outliers, fit by plain least squares, compute the in-sample R², and mark the
model fitted — no cross-validation, no quality threshold, no fallback. -/
def degFit (rows : List (Option ℚ × Option ℚ)) : Except String DegState :=
  if rows.isEmpty then .error "Cannot fit model with empty DataFrame"
  else
    let clean := degFitClean rows
    if clean.length < 5 then .error "Insufficient data for fitting"
    else
      let kept := degFitKept rows
      if kept.length < 5 then .error "Insufficient data after outlier removal"
      else
        let pts := degFitPoints rows
        match lstsq3 pts with
        | none => .error "Failed to fit model due to singular matrix"
        | some co =>
          let ssRes := (pts.map (fun p =>
            (p.2 - evalQuad co p.1) * (p.2 - evalQuad co p.1))).sum
          let ybar := meanQ (pts.map (fun p => p.2))
          let ssTot := (pts.map (fun p => (p.2 - ybar) * (p.2 - ybar))).sum
          let r2 := if 0 < ssTot then 1 - ssRes / ssTot else 0
          .ok ⟨co.1, co.2.1, co.2.2, true, r2⟩

/-- Whether a fit attempt left the model marked fitted. -/
def degFitFitted (r : Except String DegState) : Bool :=
  match r with
  | .ok st => st.fitted
  | .error _ => false

/-- C5 (amended): in the `fit_from_data` pipeline the quality gate holds —
whenever the 5-fold cross-validated R² of a group's delta points is below the
(hardcoded, not configurable) threshold 0.1, `_fit_robust_regression` returns
`None`, so the completed low-quality fit is rejected and never adopted or
persisted.  The effective `DegModel.fit`, by contrast, applies no such gate:
see `c5_fit_low_cv_counterexample`. -/
theorem c5_cv_gate_amended (circuit compound : String) (pts : List (ℚ × ℚ))
    (h : kfoldValidation (degDeltaPoints pts) 5 < 1/10) :
    fitRobustRegression circuit compound pts = none := by
  unfold fitRobustRegression
  cases hr : robustLS (degDeltaPoints pts) with
  | none => simp [hr]
  | some co =>
    simp only [hr]
    rw [if_pos h]

/-- Witness for C5 (amended): the concrete five-point group whose k-fold R²
is 0 (each fold has a single test point, so every fold scores 0) is
rejected. -/
theorem c5_cv_gate_amended_witness :
    fitRobustRegression "monaco" "SOFT"
      [(1, 10011/100), (2, 10024/100), (3, 10039/100), (4, 10056/100), (5, 10075/100)]
      = none :=
  c5_cv_gate_amended "monaco" "SOFT"
    [(1, 10011/100), (2, 10024/100), (3, 10039/100), (4, 10056/100), (5, 10075/100)]
    (by with_unfolding_all decide)

/-- C5 (counterexample): the effective `DegModel.fit` (the second, overriding
definition) marks the model fitted on five exactly-quadratic points
(lap_time = 100 + 0.1·age + 0.01·age², ages 1..5) even though the 5-fold
cross-validated R² of the very points it regressed on is 0 < 0.1: `fit`
never computes a cross-validated score, never rejects, and never falls back
to the ParameterStore. -/
theorem c5_fit_low_cv_counterexample :
    let rows : List (Option ℚ × Option ℚ) :=
      [(some (10011/100), some 1), (some (10024/100), some 2),
       (some (10039/100), some 3), (some (10056/100), some 4),
       (some (10075/100), some 5)]
    degFitFitted (degFit rows) = true ∧
      kfoldValidation (degFitPoints rows) 5 < 1/10 := by
  refine ⟨by with_unfolding_all decide, by with_unfolding_all decide⟩

end F1Sim
